import Mathlib

/-!
Shallow embedding of the phobos-postgres model runtime (src/lib/model.js).

JavaScript values are modelled by a small inductive covering the kinds the
model layer manipulates (numbers, strings, booleans, null, undefined), and a
JavaScript object by an association list of string keys and values with
first-match lookup; the model code never creates duplicate keys, and all
statements proved below are extensional in lookup and key membership.
-/

/-- The JavaScript values handled by the model layer. -/
inductive JSValue : Type where
  | vNum (n : Int)
  | vStr (s : String)
  | vBool (b : Bool)
  | vNull
  | vUndefined
deriving DecidableEq, Repr

/-- JavaScript truthiness: 0, the empty string, false, null and undefined are
falsy, everything else is truthy. -/
def truthy : JSValue → Bool
  | JSValue.vNum n => n != 0
  | JSValue.vStr s => s != ""
  | JSValue.vBool b => b
  | JSValue.vNull => false
  | JSValue.vUndefined => false

/-- A JavaScript object: association list with first-match lookup. -/
abbrev JSObj : Type := List (String × JSValue)

/-- Whether an object has an own property with the given key. -/
def hasProp {α : Type} (o : List (String × α)) (k : String) : Bool :=
  o.any (fun p => p.1 == k)

/-- Lookup of a key in an association list (first match). -/
def lookupProp {α : Type} (o : List (String × α)) (k : String) : Option α :=
  (o.find? (fun p => p.1 == k)).map (fun p => p.2)

/-- Property read on a JavaScript object: an absent key reads as undefined. -/
def getProp (o : JSObj) (k : String) : JSValue :=
  match lookupProp o k with
  | some v => v
  | none => JSValue.vUndefined

/-- Property assignment on a JavaScript object: an existing key is updated in
place, a new key is appended. -/
def setProp {α : Type} (o : List (String × α)) (k : String) (v : α) :
    List (String × α) :=
  if hasProp o k then o.map (fun p => if p.1 == k then (k, v) else p)
  else o ++ [(k, v)]

/-- The own keys of an object, in order. -/
def objKeys {α : Type} (o : List (String × α)) : List String :=
  o.map (fun p => p.1)

/-- Object.assign of two objects onto a fresh object: the result maps a key to
the second object's value when the second object has it, else to the first
object's value.  (Extensionally faithful to the JavaScript builtin; the
insertion order of overridden keys is not observed by any statement below.) -/
def objAssign (c d : JSObj) : JSObj :=
  c.filter (fun p => !(hasProp d p.1)) ++ d

/-- A model instance: the two per-instance maps of PhobosPostgresModel.
The code wraps the instance in a ModelProxy from the external phobosjs-model
package; the proxy only forwards property access to get and set and is not
part of this repository, so the instance is modelled by its two maps. -/
structure ModelInst : Type where
  dirty : JSObj
  canonical : JSObj
deriving DecidableEq, Repr

/-- The constructor: dirty and canonical start empty, then the whole data
object is stored under canonical when data.id is truthy, else under dirty. -/
def mkModel (data : JSObj) : ModelInst :=
  if truthy (getProp data "id") then ModelInst.mk [] data
  else ModelInst.mk data []

/-- Instance method get(prop): the expression dirty[prop] or-else
canonical[prop], with the JavaScript or-operator selecting the right operand
whenever the left one is falsy. -/
def ModelInst.get (m : ModelInst) (prop : String) : JSValue :=
  if truthy (getProp m.dirty prop) then getProp m.dirty prop
  else getProp m.canonical prop

/-- Instance method set(prop, value): always writes into the dirty map. -/
def ModelInst.set (m : ModelInst) (prop : String) (v : JSValue) : ModelInst :=
  ModelInst.mk (setProp m.dirty prop v) m.canonical

/-- Instance method toObject(): Object.assign of an empty object, the
canonical map and the dirty map, in that order. -/
def ModelInst.toObject (m : ModelInst) : JSObj :=
  objAssign m.canonical m.dirty

/-- The read rule exactly as the specification words it: the dirty value when
the dirty map contains an entry for the field, else the canonical value when
the canonical map contains one, else undefined.  Stated separately from
ModelInst.get so the two can be compared. -/
def specGet (m : ModelInst) (prop : String) : JSValue :=
  if hasProp m.dirty prop then getProp m.dirty prop
  else if hasProp m.canonical prop then getProp m.canonical prop
  else JSValue.vUndefined

-- Basic lemmas about the object operations.

theorem hasProp_nil {α : Type} (k : String) :
    hasProp ([] : List (String × α)) k = false := rfl

theorem lookupProp_nil {α : Type} (k : String) :
    lookupProp ([] : List (String × α)) k = none := rfl

theorem getProp_eq_vUndefined_of_not_hasProp (o : JSObj) (k : String)
    (h : hasProp o k = false) : getProp o k = JSValue.vUndefined := by
  unfold getProp lookupProp
  have hf : o.find? (fun p => p.1 == k) = none := by
    rw [List.find?_eq_none]
    intro p hp
    unfold hasProp at h
    rw [List.any_eq_false] at h
    exact h p hp
  rw [hf]
  rfl

theorem lookupProp_append {α : Type} (a b : List (String × α)) (k : String) :
    lookupProp (a ++ b) k =
      (if hasProp a k then lookupProp a k else lookupProp b k) := by
  induction a with
  | nil => simp [hasProp, lookupProp]
  | cons p rest ih =>
    by_cases hp : p.1 = k
    · simp [hasProp, lookupProp, List.find?, hp]
    · have hp' : (p.1 == k) = false := by simp [hp]
      simp only [List.cons_append, hasProp, lookupProp, List.any_cons, hp',
        Bool.false_or, List.find?, Bool.false_eq_true]
      exact ih

theorem lookupProp_filter_key_indep (o : JSObj) (k : String)
    (q : String → Bool) (hq : q k = true) :
    lookupProp (o.filter (fun p => q p.1)) k = lookupProp o k := by
  induction o with
  | nil => rfl
  | cons p rest ih =>
    by_cases hp : p.1 = k
    · simp [lookupProp, List.filter, hp, hq, List.find?]
    · have hp' : (p.1 == k) = false := by simp [hp]
      cases hqp : q p.1 with
      | true => simp only [lookupProp, List.filter, hqp, List.find?, hp',
          Bool.false_eq_true]; exact ih
      | false => simp only [lookupProp, List.filter, hqp, List.find?, hp',
          Bool.false_eq_true]; exact ih

theorem hasProp_filter_key_indep {α : Type} (o : List (String × α)) (k : String)
    (q : String → Bool) (hq : q k = true) :
    hasProp (o.filter (fun p => q p.1)) k = hasProp o k := by
  induction o with
  | nil => rfl
  | cons p rest ih =>
    by_cases hp : p.1 = k
    · simp [hasProp, List.filter, hp, hq]
    · have hp' : (p.1 == k) = false := by simp [hp]
      cases hqp : q p.1 with
      | true => simp only [hasProp, List.filter, hqp, List.any_cons, hp',
          Bool.false_or]; exact ih
      | false => simp only [hasProp, List.filter, hqp, List.any_cons, hp',
          Bool.false_or]; exact ih

theorem hasProp_append {α : Type} (a b : List (String × α)) (k : String) :
    hasProp (a ++ b) k = (hasProp a k || hasProp b k) := by
  simp [hasProp, List.any_append]

theorem hasProp_filter_of_key_rejected {α : Type} (o : List (String × α))
    (k : String) (q : String → Bool) (hq : q k = false) :
    hasProp (o.filter (fun p => q p.1)) k = false := by
  induction o with
  | nil => rfl
  | cons p rest ih =>
    by_cases hp : p.1 = k
    · simp only [List.filter, hp, hq]
      exact ih
    · cases hqp : q p.1 with
      | true =>
        have hp' : (p.1 == k) = false := by simp [hp]
        simp only [List.filter, hqp, hasProp, List.any_cons, hp', Bool.false_or]
        exact ih
      | false =>
        simp only [List.filter, hqp]
        exact ih

theorem lookupProp_eq_none_of_not_hasProp {α : Type} (o : List (String × α))
    (k : String) (h : hasProp o k = false) : lookupProp o k = none := by
  unfold lookupProp
  have hf : o.find? (fun p => p.1 == k) = none := by
    rw [List.find?_eq_none]
    intro p hp
    unfold hasProp at h
    rw [List.any_eq_false] at h
    exact h p hp
  rw [hf]
  rfl

/-- Lookup behaviour of objAssign: the second object wins on shared keys. -/
theorem lookupProp_objAssign (c d : JSObj) (k : String) :
    lookupProp (objAssign c d) k =
      (if hasProp d k then lookupProp d k else lookupProp c k) := by
  unfold objAssign
  rw [lookupProp_append]
  cases hd : hasProp d k with
  | true =>
    have hrej : hasProp (c.filter (fun p => !(hasProp d p.1))) k = false :=
      hasProp_filter_of_key_rejected c k (fun s => !(hasProp d s)) (by simp [hd])
    simp [hrej]
  | false =>
    have hkeep : (fun s => !(hasProp d s)) k = true := by simp [hd]
    rw [hasProp_filter_key_indep c k (fun s => !(hasProp d s)) hkeep]
    rw [lookupProp_filter_key_indep c k (fun s => !(hasProp d s)) hkeep]
    cases hc : hasProp c k with
    | true => simp
    | false =>
      simp only [Bool.false_eq_true, if_false]
      rw [lookupProp_eq_none_of_not_hasProp c k hc,
        lookupProp_eq_none_of_not_hasProp d k hd]

/-!
The execution primitive runQuery and the verbs built on it.

The pool collaborator (pg) is modelled by the result it delivers to the
callback of store.query: either an error or a row list.  The streaming branch
holds real concurrency (the code issues both a stream cursor and a plain
query, racing their resolutions) and is represented by an opaque outcome
constructor; every claim settled below is about the non-streaming path.
-/

/-- What the pool delivers to the store.query callback. -/
inductive QueryResult : Type where
  | err
  | ok (rows : List JSObj)
deriving DecidableEq, Repr

/-- One element of a resolved value: a raw row (lean mode) or a materialized
model instance. -/
inductive RQItem : Type where
  | raw (r : JSObj)
  | inst (m : ModelInst)
deriving DecidableEq, Repr

/-- The value a non-streaming runQuery promise resolves with: either a single
item (first/last disposition) or an array of items. -/
inductive RQResolved : Type where
  | single (it : RQItem)
  | arr (l : List RQItem)
deriving DecidableEq, Repr

/-- Outcome of a runQuery call.  earlyEmpty is the resolve of an empty array
taken before the pool is consulted, when the query or the params argument is
falsy; streamOpened stands for the streaming branch, whose racing resolution
is outside this embedding; rejected is the reject on a pool error. -/
inductive RQOutcome : Type where
  | earlyEmpty
  | streamOpened
  | rejected
  | resolved (v : RQResolved)
deriving DecidableEq, Repr

/-- The options object of runQuery with its default field values
(stream = false, lean = false, first = false, last = true).  The lean flag is
named leanFlag here. -/
structure RQOptions : Type where
  stream : Bool
  leanFlag : Bool
  first : Bool
  last : Bool
deriving DecidableEq, Repr

/-- The default options of runQuery. -/
def RQOptions.defaults : RQOptions :=
  RQOptions.mk false false false true

/-- JavaScript falsiness of the query argument: undefined (missing argument)
and the empty string are falsy. -/
def queryFalsy : Option String → Bool
  | none => true
  | some s => s == ""

/-- JavaScript falsiness of the params argument: only undefined is falsy; an
array, even empty, is truthy. -/
def paramsFalsy : Option (List JSValue) → Bool
  | none => true
  | some _ => false

/-- The row wrapping shared by the first and last branches: the raw row in
lean mode, else a new model instance seeded with the row. -/
def wrapRow (leanFlag : Bool) (r : JSObj) : RQItem :=
  if leanFlag then RQItem.raw r else RQItem.inst (mkModel r)

/-- The tail of the disposition ladder: the lean whole-list form, else the
materialization of every row. -/
def disposeAll (opts : RQOptions) (rows : List JSObj) : RQResolved :=
  if opts.leanFlag then RQResolved.arr (rows.map RQItem.raw)
  else RQResolved.arr (rows.map (fun r => RQItem.inst (mkModel r)))

/-- The last-row disposition step, guarded by a non-empty result. -/
def disposeLast (opts : RQOptions) (rows : List JSObj) : RQResolved :=
  if opts.last then
    match rows.getLast? with
    | some r => RQResolved.single (wrapRow opts.leanFlag r)
    | none => disposeAll opts rows
  else disposeAll opts rows

/-- The row-disposition ladder of runQuery on a delivered row list:
first (guarded by a non-empty result), then last (same guard), then the lean
whole-list form, then materialization of every row. -/
def dispose (opts : RQOptions) (rows : List JSObj) : RQResolved :=
  if opts.first then
    match rows.head? with
    | some r => RQResolved.single (wrapRow opts.leanFlag r)
    | none => disposeLast opts rows
  else disposeLast opts rows

/-- Static runQuery(query, params, options) against a pool delivering the
given result.  The query log hook (console.info) is observational and carries
no state, so it does not appear. -/
def runQuery (query : Option String) (params : Option (List JSValue))
    (opts : RQOptions) (pool : QueryResult) : RQOutcome :=
  if queryFalsy query || paramsFalsy params then RQOutcome.earlyEmpty
  else if opts.stream then RQOutcome.streamOpened
  else
    match pool with
    | QueryResult.err => RQOutcome.rejected
    | QueryResult.ok rows => RQOutcome.resolved (dispose opts rows)

/-!
The save guard compares Object.keys(this._dirty), an array, with the number
1.  JavaScript converts the array to a primitive by joining its elements with
commas, then converts that string to a number; the relational comparison is
false when the conversion yields NaN.
-/

/-- The numeric value of a decimal digit character, none otherwise. -/
def charDigit (c : Char) : Option Nat :=
  let n := c.toNat
  if 48 ≤ n ∧ n ≤ 57 then some (n - 48) else none

/-- Accumulating decimal parse of a character list; none on the first
non-digit. -/
def parseDigitsAux : List Char → Nat → Option Nat
  | [], acc => some acc
  | c :: rest, acc =>
    match charDigit c with
    | some d => parseDigitsAux rest (acc * 10 + d)
    | none => none

/-- JavaScript ToNumber on the strings produced by joining key lists: the
empty string converts to 0, a digit string to its value, and any other string
(every ordinary field name) to NaN, modelled as none. -/
def jsStrToNum (s : String) : Option Nat :=
  match s.data with
  | [] => some 0
  | c :: rest => parseDigitsAux (c :: rest) 0

/-- The comparison keys < 1 of the save guard, with keys an array of strings:
true exactly when the joined string converts to a number below 1. -/
def keysLtOne (keys : List String) : Bool :=
  match jsStrToNum (String.intercalate "," keys) with
  | some n => decide (n < 1)
  | none => false

/-!
The external mongo-sql compiler (the queryObject wrapper) builds the SQL text
and parameter array for each verb.  It is a dependency, not code of this
repository; every claim settled here depends only on its output being a
nonempty text plus an array of parameters, so it is represented by nonempty
stand-in texts tagged with the criteria kind.
-/

/-- Instance method save() paired with the instance state after the call:
the method assigns to neither the dirty nor the canonical map, so the second
component is the receiver unchanged.  An empty (in the coerced sense) dirty
map short-circuits to runQuery with no arguments; otherwise the criteria use
update when the canonical id is truthy, else insert, with the dirty values as
parameters. -/
def ModelInst.save (m : ModelInst) (pool : QueryResult) : RQOutcome × ModelInst :=
  if keysLtOne (objKeys m.dirty) then
    (runQuery none none RQOptions.defaults pool, m)
  else
    let qtype := if truthy (getProp m.canonical "id") then "update" else "insert"
    (runQuery (some qtype) (some (m.dirty.map (fun p => p.2)))
      RQOptions.defaults pool, m)

/-- Static all(limit, order, sort): compiles a select with no WHERE and runs
it through runQuery with the default options. -/
def allVerb (limit : Int) (order : String) (sort : String)
    (pool : QueryResult) : RQOutcome :=
  runQuery (some ("select " ++ sort ++ " " ++ order))
    (some [JSValue.vNum limit]) RQOptions.defaults pool

/-- Result of calling the static verb one(id): either a synchronous throw
with the error message, or the returned promise's outcome. -/
inductive OneOutcome : Type where
  | thrown (msg : String)
  | promised (o : RQOutcome)
deriving DecidableEq, Repr

/-- Static one(id): throws synchronously when the id is falsy, before any
query is built or issued; otherwise runs a select by id with limit 1 through
runQuery with the first option set. -/
def oneVerb (id : JSValue) (pool : QueryResult) : OneOutcome :=
  if !(truthy id) then OneOutcome.thrown "Model#one() requires an ID parameter"
  else OneOutcome.promised (runQuery (some "select by id")
    (some [id, JSValue.vNum 1])
    (RQOptions.mk false false true true) pool)

/-!
Schema initialization.  Field definitions are modelled by a record of the
three properties the code writes: the type tag, the primary-key flag and the
default expression (empty string when absent).
-/

/-- A column definition. -/
structure FieldDef : Type where
  type : String
  primaryKey : Bool
  defaultVal : String
deriving DecidableEq, Repr

/-- The mandatory id column definition written by init. -/
def serialPK : FieldDef := FieldDef.mk "serial" true ""

/-- The mandatory created_at and updated_at column definition written by
init. -/
def timestampDef : FieldDef := FieldDef.mk "timestamptz" false "now()"

/-- The fields object after init(db): starts from the id column, then copies
every user-declared attribute in order, then writes the created_at and
updated_at columns. -/
def initFields (attributes : List (String × FieldDef)) :
    List (String × FieldDef) :=
  setProp
    (setProp
      (attributes.foldl (fun acc p => setProp acc p.1 p.2) [("id", serialPK)])
      "created_at" timestampDef)
    "updated_at" timestampDef

-- Lemmas about property assignment and the attribute fold of init.

theorem lookupProp_map_overwrite {α : Type} (o : List (String × α))
    (k : String) (v : α) :
    lookupProp (o.map (fun p => if p.1 == k then (k, v) else p)) k =
      (if hasProp o k then some v else none) := by
  induction o with
  | nil => rfl
  | cons p rest ih =>
    by_cases hp : p.1 = k
    · have hp' : (p.1 == k) = true := by simp [hp]
      simp [lookupProp, hasProp, List.find?, hp']
    · have hp' : (p.1 == k) = false := by simp [hp]
      simp only [List.map_cons, hp', Bool.false_eq_true, if_false,
        lookupProp, List.find?, hasProp, List.any_cons, Bool.false_or]
      exact ih

theorem lookupProp_setProp_self {α : Type} (o : List (String × α))
    (k : String) (v : α) : lookupProp (setProp o k v) k = some v := by
  unfold setProp
  cases h : hasProp o k with
  | true =>
    simp only [if_true]
    rw [lookupProp_map_overwrite, h]
    rfl
  | false =>
    simp only [Bool.false_eq_true, if_false]
    rw [lookupProp_append, h]
    simp [lookupProp, List.find?]

theorem lookupProp_map_overwrite_ne {α : Type} (o : List (String × α))
    (k : String) (v : α) (j : String) (hne : j ≠ k) :
    lookupProp (o.map (fun p => if p.1 == k then (k, v) else p)) j =
      lookupProp o j := by
  induction o with
  | nil => rfl
  | cons p rest ih =>
    by_cases hp : p.1 = k
    · have hp' : (p.1 == k) = true := by simp [hp]
      have hkj : (k == j) = false := by
        simp only [beq_eq_false_iff_ne]
        exact Ne.symm hne
      have hpj : (p.1 == j) = false := by
        subst hp
        exact hkj
      simp only [List.map_cons, hp', if_true, lookupProp, List.find?, hkj, hpj]
      exact ih
    · have hp' : (p.1 == k) = false := by simp [hp]
      simp only [List.map_cons, hp', Bool.false_eq_true, if_false,
        lookupProp, List.find?]
      cases hpj : (p.1 == j) with
      | true => rfl
      | false => exact ih

theorem lookupProp_setProp_ne {α : Type} (o : List (String × α))
    (k : String) (v : α) (j : String) (hne : j ≠ k) :
    lookupProp (setProp o k v) j = lookupProp o j := by
  unfold setProp
  cases h : hasProp o k with
  | true =>
    simp only [if_true]
    exact lookupProp_map_overwrite_ne o k v j hne
  | false =>
    simp only [Bool.false_eq_true, if_false]
    rw [lookupProp_append]
    cases hj : hasProp o j with
    | true => simp
    | false =>
      have hkj : (k == j) = false := by
        simp only [beq_eq_false_iff_ne]
        exact Ne.symm hne
      simp only [Bool.false_eq_true, if_false]
      rw [lookupProp_eq_none_of_not_hasProp o j hj]
      simp [lookupProp, List.find?, hkj]

theorem key_ne_of_hasProp_false {α : Type} (o : List (String × α))
    (k : String) (h : hasProp o k = false) (p : String × α) (hp : p ∈ o) :
    p.1 ≠ k := by
  unfold hasProp at h
  rw [List.any_eq_false] at h
  have := h p hp
  simpa using this

theorem lookupProp_foldl_setProp_not_mem {α : Type}
    (attrs : List (String × α)) (o : List (String × α)) (k : String)
    (h : hasProp attrs k = false) :
    lookupProp (attrs.foldl (fun acc p => setProp acc p.1 p.2) o) k =
      lookupProp o k := by
  induction attrs generalizing o with
  | nil => rfl
  | cons q rest ih =>
    have hq : q.1 ≠ k :=
      key_ne_of_hasProp_false (q :: rest) k h q (List.mem_cons_self q rest)
    have hrest : hasProp rest k = false := by
      unfold hasProp at h ⊢
      rw [List.any_eq_false] at h ⊢
      intro p hp
      exact h p (List.mem_cons_of_mem q hp)
    rw [List.foldl_cons, ih (setProp o q.1 q.2) hrest]
    exact lookupProp_setProp_ne o q.1 q.2 k (fun hh => hq hh.symm)

theorem hasProp_eq_false_of_not_mem_objKeys {α : Type}
    (o : List (String × α)) (k : String) (h : k ∉ objKeys o) :
    hasProp o k = false := by
  unfold hasProp
  rw [List.any_eq_false]
  intro p hp
  simp only [beq_iff_eq]
  intro hk
  exact h (by
    unfold objKeys
    rw [List.mem_map]
    exact ⟨p, hp, hk⟩)

theorem lookupProp_foldl_setProp_mem {α : Type}
    (attrs : List (String × α)) (o : List (String × α))
    (p : String × α) (hmem : p ∈ attrs) (hnd : (objKeys attrs).Nodup) :
    lookupProp (attrs.foldl (fun acc q => setProp acc q.1 q.2) o) p.1 =
      some p.2 := by
  induction attrs generalizing o with
  | nil => cases hmem
  | cons q rest ih =>
    have hnd' : (objKeys rest).Nodup ∧ q.1 ∉ objKeys rest := by
      unfold objKeys at hnd ⊢
      rw [List.map_cons, List.nodup_cons] at hnd
      exact ⟨hnd.2, hnd.1⟩
    rw [List.foldl_cons]
    rcases List.mem_cons.mp hmem with heq | htail
    · subst heq
      rw [lookupProp_foldl_setProp_not_mem rest (setProp o p.1 p.2) p.1
        (hasProp_eq_false_of_not_mem_objKeys rest p.1 hnd'.2)]
      exact lookupProp_setProp_self o p.1 p.2
    · exact ih (setProp o q.1 q.2) htail hnd'.1

/-!
The claims.
-/

/-- An instance reached through the public API: constructed from a row with a
truthy id (canonical seeded) and then mutated by one set call writing the
falsy value 0 over a field the canonical map also defines. -/
def c1Inst : ModelInst :=
  (mkModel [("id", JSValue.vNum 7), ("f", JSValue.vNum 5)]).set
    "f" (JSValue.vNum 0)

/-- Claim C1 counterexample: the dirty map of c1Inst contains the entry 0 for
field f, yet get returns the canonical value 5, because the or-operator in
get falls through on every falsy dirty value; so get does not return the
dirty value whenever the dirty map merely contains an entry. -/
theorem claim1_counterexample :
    hasProp c1Inst.dirty "f" = true ∧
    getProp c1Inst.dirty "f" = JSValue.vNum 0 ∧
    ModelInst.get c1Inst "f" = JSValue.vNum 5 ∧
    ModelInst.get c1Inst "f" ≠ specGet c1Inst "f" := by decide

/-- Claim C1, amended: for every instance and field, get(field) returns the
dirty value when that value is truthy; otherwise it returns the canonical
value when the canonical map contains one, else undefined.  (Falsy dirty
values, such as 0, the empty string, false and null, fall through to the
canonical map.) -/
theorem claim1_get_read_rule (m : ModelInst) (prop : String) :
    ModelInst.get m prop =
      (if truthy (getProp m.dirty prop) then getProp m.dirty prop
       else if hasProp m.canonical prop then getProp m.canonical prop
       else JSValue.vUndefined) := by
  unfold ModelInst.get
  by_cases hd : truthy (getProp m.dirty prop) = true
  · rw [if_pos hd, if_pos hd]
  · rw [if_neg hd, if_neg hd]
    by_cases hc : hasProp m.canonical prop = true
    · rw [if_pos hc]
    · have hc' : hasProp m.canonical prop = false := by
        revert hc
        cases hasProp m.canonical prop <;> simp
      rw [if_neg hc, getProp_eq_vUndefined_of_not_hasProp m.canonical prop hc']

/-- The instance of the claim C2 counterexample: a fresh record with one
dirty field and an empty canonical map. -/
def c2Inst : ModelInst := ModelInst.mk [("username", JSValue.vStr "bill")] []

/-- The row the pool returns for the save of c2Inst. -/
def c2Row : JSObj := [("id", JSValue.vNum 1), ("username", JSValue.vStr "bill")]

/-- Claim C2 counterexample: after a successful save of an instance with a
non-empty dirty map, the instance's canonical map has not received the
returned row and its dirty map is not empty — save mutates neither map; the
returned row only seeds the fresh instance the promise resolves with. -/
theorem claim2_counterexample :
    ¬ ((ModelInst.save c2Inst (QueryResult.ok [c2Row])).2.canonical = c2Row ∧
       (ModelInst.save c2Inst (QueryResult.ok [c2Row])).2.dirty = []) := by
  decide

/-- Claim C2, amended: a save() on an instance whose dirty keys do not
compare below 1 under the coerced array comparison (every ordinary non-empty
dirty map), against a pool that succeeds with a non-empty row list whose last
row carries a truthy id, resolves to a NEW instance holding that row as its
canonical map with an empty dirty map, and leaves the calling instance's
dirty and canonical maps unchanged. -/
theorem claim2_save_resolves_fresh_instance (m : ModelInst)
    (rows : List JSObj) (r : JSObj)
    (hguard : keysLtOne (objKeys m.dirty) = false)
    (hlast : rows.getLast? = some r)
    (hid : truthy (getProp r "id") = true) :
    (ModelInst.save m (QueryResult.ok rows)).1 =
      RQOutcome.resolved (RQResolved.single (RQItem.inst (ModelInst.mk [] r)))
    ∧ (ModelInst.save m (QueryResult.ok rows)).2 = m := by
  constructor
  · unfold ModelInst.save
    simp only [hguard, Bool.false_eq_true, if_false]
    by_cases hcid : truthy (getProp m.canonical "id") = true
    · rw [if_pos hcid]
      simp [runQuery, queryFalsy, paramsFalsy, RQOptions.defaults, dispose,
        disposeLast, hlast, wrapRow, mkModel, hid]
    · rw [if_neg hcid]
      simp [runQuery, queryFalsy, paramsFalsy, RQOptions.defaults, dispose,
        disposeLast, hlast, wrapRow, mkModel, hid]
  · unfold ModelInst.save
    by_cases hg : keysLtOne (objKeys m.dirty) = true
    · rw [if_pos hg]
    · rw [if_neg hg]

/-- Claim C2 witness: the amended statement at the concrete counterexample
instance and row. -/
theorem claim2_witness :
    (ModelInst.save c2Inst (QueryResult.ok [c2Row])).1 =
      RQOutcome.resolved
        (RQResolved.single (RQItem.inst (ModelInst.mk [] c2Row)))
    ∧ (ModelInst.save c2Inst (QueryResult.ok [c2Row])).2 = c2Inst :=
  claim2_save_resolves_fresh_instance c2Inst [c2Row] c2Row
    (by decide) (by decide) (by decide)

/-- First row of the two-row result for claim C3. -/
def c3Row1 : JSObj := [("id", JSValue.vNum 1), ("username", JSValue.vStr "a")]

/-- Second row of the two-row result for claim C3. -/
def c3Row2 : JSObj := [("id", JSValue.vNum 2), ("username", JSValue.vStr "b")]

/-- Claim C3 (code bug): all() with its defaults, against a pool delivering
two rows, resolves to a single instance materialized from the LAST row, not
to the full sequence of materialized rows — the default last = true of
runQuery collapses every non-empty result of all() to one instance,
contradicting the claim and the function's own documentation. -/
theorem claim3_all_collapses_to_last_row :
    allVerb 20 "ASC" "id" (QueryResult.ok [c3Row1, c3Row2]) =
      RQOutcome.resolved
        (RQResolved.single (RQItem.inst (ModelInst.mk [] c3Row2)))
    ∧ allVerb 20 "ASC" "id" (QueryResult.ok [c3Row1, c3Row2]) ≠
      RQOutcome.resolved
        (RQResolved.arr [RQItem.inst (ModelInst.mk [] c3Row1),
          RQItem.inst (ModelInst.mk [] c3Row2)]) := by
  decide

/-- Claim C4: save() on an instance with an empty dirty map resolves the
empty array before the pool is consulted (no query is submitted) and leaves
the instance — in particular its canonical map — unchanged, whatever the
pool would have answered. -/
theorem claim4_empty_dirty_save_noop (m : ModelInst) (pool : QueryResult)
    (h : m.dirty = []) :
    ModelInst.save m pool = (RQOutcome.earlyEmpty, m) := by
  cases m with
  | mk d c =>
    have hd : d = [] := h
    subst hd
    rfl

/-- Claim C4 witness: the theorem at a concrete saved instance and a pool
that would deliver a row. -/
theorem claim4_witness :
    ModelInst.save (ModelInst.mk [] [("id", JSValue.vNum 4)])
        (QueryResult.ok [[("id", JSValue.vNum 9)]]) =
      (RQOutcome.earlyEmpty, ModelInst.mk [] [("id", JSValue.vNum 4)]) :=
  claim4_empty_dirty_save_noop
    (ModelInst.mk [] [("id", JSValue.vNum 4)])
    (QueryResult.ok [[("id", JSValue.vNum 9)]]) rfl

/-- Claim C5: one(id) with a falsy id throws synchronously with the
validation error message, before any query is built, whatever the pool state
— the outcome is the same for every pool. -/
theorem claim5_one_falsy_throws (id : JSValue) (pool : QueryResult)
    (h : truthy id = false) :
    oneVerb id pool = OneOutcome.thrown "Model#one() requires an ID parameter"
    := by
  unfold oneVerb
  rw [h]
  rfl

/-- Claim C5 witness: the theorem at each of the four falsy ids (0, null,
undefined, the empty string), against pools in both states. -/
theorem claim5_witness :
    oneVerb (JSValue.vNum 0) (QueryResult.ok [[("id", JSValue.vNum 1)]]) =
      OneOutcome.thrown "Model#one() requires an ID parameter"
    ∧ oneVerb JSValue.vNull QueryResult.err =
      OneOutcome.thrown "Model#one() requires an ID parameter"
    ∧ oneVerb JSValue.vUndefined (QueryResult.ok []) =
      OneOutcome.thrown "Model#one() requires an ID parameter"
    ∧ oneVerb (JSValue.vStr "") QueryResult.err =
      OneOutcome.thrown "Model#one() requires an ID parameter" :=
  And.intro
    (claim5_one_falsy_throws (JSValue.vNum 0)
      (QueryResult.ok [[("id", JSValue.vNum 1)]]) (by decide))
    (And.intro
      (claim5_one_falsy_throws JSValue.vNull QueryResult.err (by decide))
      (And.intro
        (claim5_one_falsy_throws JSValue.vUndefined (QueryResult.ok [])
          (by decide))
        (claim5_one_falsy_throws (JSValue.vStr "") QueryResult.err
          (by decide))))

/-- Claim C6: a non-streaming runQuery with a real query and parameter array,
whose executed query yields zero rows, resolves to the empty array for every
combination of the first, last and lean flags. -/
theorem claim6_zero_rows_empty_array (q : String) (ps : List JSValue)
    (leanFlag first last : Bool) (h : (q == "") = false) :
    runQuery (some q) (some ps) (RQOptions.mk false leanFlag first last)
        (QueryResult.ok []) =
      RQOutcome.resolved (RQResolved.arr []) := by
  cases leanFlag <;> cases first <;> cases last <;>
    simp [runQuery, queryFalsy, paramsFalsy, h, dispose, disposeLast,
      disposeAll]

/-- Claim C6 witness: the theorem at a concrete query with every flag set. -/
theorem claim6_witness :
    runQuery (some "select x") (some [JSValue.vNum 3])
        (RQOptions.mk false true true true) (QueryResult.ok []) =
      RQOutcome.resolved (RQResolved.arr []) :=
  claim6_zero_rows_empty_array "select x" [JSValue.vNum 3] true true true
    (by decide)

/-- Claim C7: toObject() is exactly the key-wise union of the canonical and
dirty maps with the dirty value taken on every shared key: its lookup at any
key is the dirty lookup when the dirty map has the key, else the canonical
lookup, and it has a key exactly when one of the two maps does. -/
theorem claim7_toObject_union (m : ModelInst) (k : String) :
    getProp (ModelInst.toObject m) k =
      (if hasProp m.dirty k then getProp m.dirty k else getProp m.canonical k)
    ∧ hasProp (ModelInst.toObject m) k =
      (hasProp m.canonical k || hasProp m.dirty k) := by
  constructor
  · unfold ModelInst.toObject getProp
    rw [lookupProp_objAssign]
    by_cases hd : hasProp m.dirty k = true
    · rw [if_pos hd, if_pos hd]
    · rw [if_neg hd, if_neg hd]
  · unfold ModelInst.toObject objAssign
    rw [hasProp_append]
    cases hd : hasProp m.dirty k with
    | true =>
      rw [hasProp_filter_of_key_rejected m.canonical k
        (fun s => !(hasProp m.dirty s)) (by simp [hd])]
      simp
    | false =>
      rw [hasProp_filter_key_indep m.canonical k
        (fun s => !(hasProp m.dirty s)) (by simp [hd])]

/-- A row that contains an id field whose value is the falsy 0. -/
def c8Row : JSObj := [("id", JSValue.vNum 0), ("username", JSValue.vStr "x")]

/-- Claim C8 counterexample: constructing an instance from a row whose id
field holds 0 puts the whole row into the DIRTY map (canonical stays empty),
so although toObject still reproduces the row, its fields come entirely from
the dirty map — the claim's no-dirty-contribution condition fails. -/
theorem claim8_counterexample :
    ¬ (ModelInst.toObject (mkModel c8Row) = c8Row ∧
       (mkModel c8Row).dirty = []) := by decide

/-- Claim C8, amended: for every row with a TRUTHY id, constructing an
instance from the row and then calling toObject reproduces exactly the row,
and the instance's dirty map is empty, so nothing is contributed by it. -/
theorem claim8_roundtrip_truthy_id (row : JSObj)
    (h : truthy (getProp row "id") = true) :
    ModelInst.toObject (mkModel row) = row ∧ (mkModel row).dirty = [] := by
  unfold mkModel
  rw [if_pos h]
  constructor
  · unfold ModelInst.toObject objAssign
    simp [hasProp]
  · rfl

/-- Claim C8 witness: the amended round trip at a concrete row. -/
theorem claim8_witness :
    ModelInst.toObject
        (mkModel [("id", JSValue.vNum 3), ("username", JSValue.vStr "x")]) =
      [("id", JSValue.vNum 3), ("username", JSValue.vStr "x")]
    ∧ (mkModel [("id", JSValue.vNum 3),
        ("username", JSValue.vStr "x")]).dirty = [] :=
  claim8_roundtrip_truthy_id
    [("id", JSValue.vNum 3), ("username", JSValue.vStr "x")] (by decide)

/-- Claim C9 counterexample: a user-declared attribute named id overwrites
the mandatory serial primary-key definition in the fields map built by init,
so the claim fails for that attribute set. -/
theorem claim9_counterexample :
    lookupProp (initFields [("id", FieldDef.mk "varchar(30)" false "")]) "id"
      ≠ some serialPK := by decide

/-- Claim C9, amended: for every attribute object whose keys are distinct
and avoid the three mandatory column names, the fields map after init holds the
serial primary-key id, the two mandatory timestamp columns, and every
user-declared attribute with its declared definition. -/
theorem claim9_init_fields (attrs : List (String × FieldDef))
    (hid : hasProp attrs "id" = false)
    (hc : hasProp attrs "created_at" = false)
    (hu : hasProp attrs "updated_at" = false)
    (hnd : (objKeys attrs).Nodup) :
    lookupProp (initFields attrs) "id" = some serialPK
    ∧ lookupProp (initFields attrs) "created_at" = some timestampDef
    ∧ lookupProp (initFields attrs) "updated_at" = some timestampDef
    ∧ ∀ p ∈ attrs, lookupProp (initFields attrs) p.1 = some p.2 := by
  unfold initFields
  refine ⟨?_, ?_, ?_, ?_⟩
  · rw [lookupProp_setProp_ne _ "updated_at" timestampDef "id" (by decide),
      lookupProp_setProp_ne _ "created_at" timestampDef "id" (by decide),
      lookupProp_foldl_setProp_not_mem attrs [("id", serialPK)] "id" hid]
    rfl
  · rw [lookupProp_setProp_ne _ "updated_at" timestampDef "created_at"
      (by decide)]
    exact lookupProp_setProp_self _ "created_at" timestampDef
  · exact lookupProp_setProp_self _ "updated_at" timestampDef
  · intro p hp
    have h1 : p.1 ≠ "updated_at" :=
      key_ne_of_hasProp_false attrs "updated_at" hu p hp
    have h2 : p.1 ≠ "created_at" :=
      key_ne_of_hasProp_false attrs "created_at" hc p hp
    rw [lookupProp_setProp_ne _ "updated_at" timestampDef p.1 h1,
      lookupProp_setProp_ne _ "created_at" timestampDef p.1 h2]
    exact lookupProp_foldl_setProp_mem attrs [("id", serialPK)] p hp hnd

/-- Claim C9 witness: the amended statement at a one-attribute model, the
attribute lookup taken at the declared username column. -/
theorem claim9_witness :
    lookupProp (initFields [("username", FieldDef.mk "varchar(30)" false "")])
        "id" = some serialPK
    ∧ lookupProp (initFields
        [("username", FieldDef.mk "varchar(30)" false "")]) "created_at" =
      some timestampDef
    ∧ lookupProp (initFields
        [("username", FieldDef.mk "varchar(30)" false "")]) "updated_at" =
      some timestampDef
    ∧ lookupProp (initFields
        [("username", FieldDef.mk "varchar(30)" false "")]) "username" =
      some (FieldDef.mk "varchar(30)" false "") := by
  have h := claim9_init_fields
    [("username", FieldDef.mk "varchar(30)" false "")]
    (by decide) (by decide) (by decide) (by decide)
  exact ⟨h.1, h.2.1, h.2.2.1,
    h.2.2.2 ("username", FieldDef.mk "varchar(30)" false "")
      (List.mem_singleton.mpr rfl)⟩

/-- Claim C10: the constructor stores the whole data object in the dirty map
and leaves canonical empty whenever data.id is falsy (absent, 0, empty
string or null), and stores it as canonical with an empty dirty map exactly
when data.id is truthy. -/
theorem claim10_constructor_branch (data : JSObj) :
    (truthy (getProp data "id") = false →
      mkModel data = ModelInst.mk data [])
    ∧ (truthy (getProp data "id") = true →
      mkModel data = ModelInst.mk [] data) := by
  constructor
  · intro h
    simp [mkModel, h]
  · intro h
    simp [mkModel, h]

/-- Claim C10 witness: both branches at concrete data — a row seeded with
id 0 lands whole in the dirty map, a row with a truthy id in canonical. -/
theorem claim10_witness :
    mkModel [("id", JSValue.vNum 0), ("username", JSValue.vStr "b")] =
      ModelInst.mk [("id", JSValue.vNum 0), ("username", JSValue.vStr "b")] []
    ∧ mkModel [("id", JSValue.vNum 2)] =
      ModelInst.mk [] [("id", JSValue.vNum 2)] :=
  And.intro
    ((claim10_constructor_branch
      [("id", JSValue.vNum 0), ("username", JSValue.vStr "b")]).1 (by decide))
    ((claim10_constructor_branch [("id", JSValue.vNum 2)]).2 (by decide))
